import Mathlib

/-!
Verification development for `gpt_structure.py` of the generative_agents
backend server: a shallow embedding of the prompt templater, the transport
adapter wrappers, the structured-output extraction, the retry/validate/cleanup
engines and the embedding adapter, together with theorems settling the
specified properties.

Python strings are modelled as `List Char` (wrapped in `String` at the API
boundary); the remote LLM endpoint is modelled as an oracle
`Nat → Except TransportFault String` giving, for each attempt index, either a
response text or a raised transport exception.  Recursive text scanners use an
explicit fuel argument (always instantiated with the input length plus one,
which is adequate because every recursive step consumes at least one
character); this keeps every definition computable by the kernel.
-/

/-- Python whitespace for `str.strip()` (ASCII subset). -/
def isPyWs (c : Char) : Bool :=
  c = ' ' || c = '\t' || c = '\n' || c = '\r' || c = '\x0b' || c = '\x0c'

/-- `str.strip()` : drop whitespace from both ends. -/
def stripL (l : List Char) : List Char :=
  ((l.dropWhile isPyWs).reverse.dropWhile isPyWs).reverse

/-- Index of the last occurrence of a character, as Python `str.rfind` but
returning `none` instead of `-1` when the character is absent. -/
def lastIdxOf (ch : Char) : List Char → Option Nat
  | [] => none
  | c :: rest =>
    match lastIdxOf ch rest with
    | some i => some (i + 1)
    | none => if c = ch then some 0 else none

/-- The opening brace character (spelled via its code point). -/
def lbrace : Char := Char.ofNat 123

/-- The closing brace character (spelled via its code point). -/
def rbrace : Char := Char.ofNat 125

/-- `curr_gpt_response[:curr_gpt_response.rfind(rbrace) + 1]` : everything up
to and including the last closing brace; empty when there is none
(`rfind` returns `-1`, so the slice end is `0`). -/
def sliceToLastBrace (l : List Char) : List Char :=
  let endIdx : Nat :=
    match lastIdxOf rbrace l with
    | none => 0
    | some i => i + 1
  l.take endIdx

/-- JSON values as produced by `json.loads`.  Number literals are kept as
their source lexemes (no numeric payload in this code path ever uses them). -/
inductive JValue where
  | jnull : JValue
  | jbool (b : Bool) : JValue
  | jnum (lexeme : String) : JValue
  | jstr (s : String) : JValue
  | jarr (elems : List JValue) : JValue
  | jobj (fields : List (String × JValue)) : JValue

/-- JSON insignificant whitespace. -/
def jsonWs (c : Char) : Bool :=
  c = ' ' || c = '\t' || c = '\n' || c = '\r'

def skipWs (l : List Char) : List Char := l.dropWhile jsonWs

def hexVal (c : Char) : Option Nat :=
  if '0' ≤ c ∧ c ≤ '9' then some (c.toNat - 48)
  else if 'a' ≤ c ∧ c ≤ 'f' then some (c.toNat - 87)
  else if 'A' ≤ c ∧ c ≤ 'F' then some (c.toNat - 55)
  else none

def isDigit (c : Char) : Bool := '0' ≤ c && c ≤ '9'

/-- Body of a JSON string after the opening quote: returns the decoded
characters and the remaining input after the closing quote. -/
def parseStrBody : Nat → List Char → Option (List Char × List Char)
  | 0, _ => none
  | _ + 1, [] => none
  | f + 1, c :: rest =>
    if c = '"' then some ([], rest)
    else if c = '\\' then
      match rest with
      | [] => none
      | e :: r2 =>
        let echar : Option (Char × List Char) :=
          if e = '"' then some ('"', r2)
          else if e = '\\' then some ('\\', r2)
          else if e = '/' then some ('/', r2)
          else if e = 'b' then some ('\x08', r2)
          else if e = 'f' then some ('\x0c', r2)
          else if e = 'n' then some ('\n', r2)
          else if e = 'r' then some ('\r', r2)
          else if e = 't' then some ('\t', r2)
          else if e = 'u' then
            match r2 with
            | h1 :: h2 :: h3 :: h4 :: r3 =>
              match hexVal h1, hexVal h2, hexVal h3, hexVal h4 with
              | some a, some b, some c2, some d =>
                some (Char.ofNat (((a * 16 + b) * 16 + c2) * 16 + d), r3)
              | _, _, _, _ => none
            | _ => none
          else none
        match echar with
        | none => none
        | some (ch, r3) =>
          match parseStrBody f r3 with
          | none => none
          | some (acc, rest2) => some (ch :: acc, rest2)
    else if c.toNat < 32 then none
    else
      match parseStrBody f rest with
      | none => none
      | some (acc, rest2) => some (c :: acc, rest2)

/-- Lexeme of a JSON number (sign, integer part, optional fraction and
exponent).  Leading-zero strictness is not modelled; no claim exercises
numeric payloads. -/
def parseNumLex (cs : List Char) : Option (List Char × List Char) :=
  let (sign, cs1) :=
    match cs with
    | '-' :: r => ([('-' : Char)], r)
    | _ => (([] : List Char), cs)
  match cs1.takeWhile isDigit with
  | [] => none
  | ip =>
    let cs2 := cs1.dropWhile isDigit
    let (frac, cs3) :=
      match cs2 with
      | '.' :: r =>
        match r.takeWhile isDigit with
        | [] => (([] : List Char), cs2)
        | ds => ('.' :: ds, r.dropWhile isDigit)
      | _ => (([] : List Char), cs2)
    let (ex, cs4) :=
      match cs3 with
      | 'e' :: '+' :: r =>
        (match r.takeWhile isDigit with
         | [] => (([] : List Char), cs3)
         | ds => ('e' :: '+' :: ds, r.dropWhile isDigit))
      | 'e' :: '-' :: r =>
        (match r.takeWhile isDigit with
         | [] => (([] : List Char), cs3)
         | ds => ('e' :: '-' :: ds, r.dropWhile isDigit))
      | 'e' :: r =>
        (match r.takeWhile isDigit with
         | [] => (([] : List Char), cs3)
         | ds => ('e' :: ds, r.dropWhile isDigit))
      | 'E' :: r =>
        (match r.takeWhile isDigit with
         | [] => (([] : List Char), cs3)
         | ds => ('E' :: ds, r.dropWhile isDigit))
      | _ => (([] : List Char), cs3)
    some (sign ++ ip ++ frac ++ ex, cs4)

/-- Recursive JSON parser.  The second argument is a mode tag:
`0` parses one value, `1` parses object members up to the closing brace
(result wrapped as `jobj`), `2` parses array elements up to the closing
bracket (result wrapped as `jarr`).  Fuel decreases at every recursive call;
one unit per character of nesting or member suffices. -/
def parseJ : Nat → Nat → List Char → Option (JValue × List Char)
  | 0, _, _ => none
  | f + 1, 0, cs =>
    match skipWs cs with
    | [] => none
    | c :: rest =>
      if c = '"' then
        match parseStrBody (rest.length + 1) rest with
        | some (acc, r) => some (JValue.jstr (String.mk acc), r)
        | none => none
      else if c = lbrace then
        match skipWs rest with
        | c2 :: r2 =>
          if c2 = rbrace then some (JValue.jobj [], r2)
          else parseJ f 1 rest
        | [] => none
      else if c = '[' then
        match skipWs rest with
        | ']' :: r2 => some (JValue.jarr [], r2)
        | _ => parseJ f 2 rest
      else if c = 't' then
        match rest with
        | 'r' :: 'u' :: 'e' :: r => some (JValue.jbool true, r)
        | _ => none
      else if c = 'f' then
        match rest with
        | 'a' :: 'l' :: 's' :: 'e' :: r => some (JValue.jbool false, r)
        | _ => none
      else if c = 'n' then
        match rest with
        | 'u' :: 'l' :: 'l' :: r => some (JValue.jnull, r)
        | _ => none
      else if c = '-' ∨ isDigit c then
        match parseNumLex (c :: rest) with
        | some (lex, r) => some (JValue.jnum (String.mk lex), r)
        | none => none
      else none
  | f + 1, 1, cs =>
    match skipWs cs with
    | c :: rest =>
      if c = '"' then
        match parseStrBody (rest.length + 1) rest with
        | some (k, r1) =>
          match skipWs r1 with
          | ':' :: r2 =>
            match parseJ f 0 r2 with
            | some (v, r3) =>
              (match skipWs r3 with
               | ',' :: r4 =>
                 match parseJ f 1 r4 with
                 | some (JValue.jobj fs, r5) =>
                   some (JValue.jobj ((String.mk k, v) :: fs), r5)
                 | _ => none
               | c2 :: r4 =>
                 if c2 = rbrace then some (JValue.jobj [(String.mk k, v)], r4)
                 else none
               | [] => none)
            | none => none
          | _ => none
        | none => none
      else none
    | [] => none
  | f + 1, _, cs =>
    match parseJ f 0 cs with
    | some (v, r1) =>
      (match skipWs r1 with
       | ',' :: r2 =>
         match parseJ f 2 r2 with
         | some (JValue.jarr vs, r3) => some (JValue.jarr (v :: vs), r3)
         | _ => none
       | ']' :: r2 => some (JValue.jarr [v], r2)
       | _ => none)
    | none => none

/-- `json.loads` : parse a complete JSON document, rejecting trailing data
(and, in particular, failing on the empty string). -/
def parseJson (l : List Char) : Option JValue :=
  match parseJ (l.length + 1) 0 l with
  | some (v, rest) => if skipWs rest = [] then some v else none
  | none => none

/-- Python subscripting of a decoded JSON value with a string key:
a dictionary yields the value under the key (last duplicate wins, raising
`KeyError` when absent); every non-dictionary value raises `TypeError`. -/
def getField (v : JValue) (k : String) : Except Unit JValue :=
  match v with
  | JValue.jobj fs =>
    match fs.reverse.find? (fun p => p.1 == k) with
    | some p => Except.ok p.2
    | none => Except.error ()
  | _ => Except.error ()

/-- The structured-output extraction performed inline by the JSON-framed
retry engines (`gpt_structure.py` lines 188-191 and 148-151):
strip the raw response, keep everything up to and including the last closing
brace, `json.loads` the result and read its "output" field.  Any failure is a
raised exception, modelled as `Except.error ()`. -/
def extractStructured (raw : String) : Except Unit JValue :=
  let curr := stripL raw.toList
  let sliced := sliceToLastBrace curr
  match parseJson sliced with
  | none => Except.error ()
  | some v => getField v ("output")

/-! ## Transport adapters

One network round-trip is modelled by a value of type
`Except TransportFault String`: the response text the SDK call would return,
or the exception it would raise.  A retry engine consumes an oracle
`transport : Nat → Except TransportFault String` giving the outcome of the
round-trip performed on each attempt index. -/

/-- The exception classes caught by the request wrappers:
`RateLimitError`, `APIConnectionError`, `APIError`, and the final blanket
`except Exception`. -/
inductive TransportFault where
  | rateLimit : TransportFault
  | connection : TransportFault
  | api : TransportFault
  | other : TransportFault
deriving DecidableEq

/-- `GPT4_request` (lines 63-93): return the completion text; every caught
exception class is logged and turned into the fixed sentinel string
"ChatGPT ERROR".  The result is an `Except` so that "the call raised" is
representable; this function returns `ok` on every input. -/
def GPT4_request (t : Except TransportFault String) : Except TransportFault String :=
  match t with
  | Except.ok s => Except.ok s
  | Except.error _ => Except.ok ("ChatGPT ERROR")

/-- `ChatGPT_request` (lines 96-125): identical error behavior, same
sentinel. -/
def ChatGPT_request (t : Except TransportFault String) : Except TransportFault String :=
  match t with
  | Except.ok s => Except.ok s
  | Except.error _ => Except.ok ("ChatGPT ERROR")

/-- The legacy engine-name remapping of `GPT_request` (lines 258-266). -/
def model_mapping (engine : String) : String :=
  if engine = "text-davinci-003" then "gpt-3.5-turbo"
  else if engine = "text-davinci-002" then "gpt-3.5-turbo"
  else if engine = "text-curie-001" then "gpt-3.5-turbo"
  else if engine = "text-babbage-001" then "gpt-3.5-turbo"
  else if engine = "text-ada-001" then "gpt-3.5-turbo"
  else engine

/-- `GPT_request` (lines 241-280): the whole body sits in a
`try/except Exception`, so any raised exception is logged and replaced by the
fixed sentinel "TOKEN LIMIT EXCEEDED".  The engine remapping only changes the
model identifier put on the wire, which the transport oracle abstracts. -/
def GPT_request (t : Except TransportFault String) : Except TransportFault String :=
  match t with
  | Except.ok s => Except.ok s
  | Except.error _ => Except.ok ("TOKEN LIMIT EXCEEDED")

/-! ## Retry / validate / cleanup engines

Caller-supplied `func_validate` and `func_clean_up` receive the candidate and
the prompt and are modelled in `Except Unit` so that "the callback raised" is
representable.  Cleanup results are opaque Python values: -/

/-- The Python values observable as an engine result: a string, or a bare
boolean (the JSON-framed engines return the constant `False` on
exhaustion). -/
inductive PyVal where
  | vBool (b : Bool) : PyVal
  | vStr (s : String) : PyVal
deriving DecidableEq

/-- Which control path an engine run took: `success` (returned the cleanup
result), `exhausted` (fell through the loop and returned the given value), or
`raised` (an exception escaped to the caller). -/
inductive EngineOutcome where
  | success (r : PyVal) : EngineOutcome
  | exhausted (r : PyVal) : EngineOutcome
  | raised : EngineOutcome
deriving DecidableEq

/-- Observable summary of one engine run: its outcome together with the
number of transport calls made and the number of `func_clean_up`
invocations. -/
structure EngineRun where
  outcome : EngineOutcome
  calls : Nat
  cleanups : Nat
deriving DecidableEq

/-- The loop of `safe_generate_response` (lines 321-329) from attempt index
`i` with `n` attempts remaining.  Each attempt calls `GPT_request` (which
cannot raise), then `func_validate` *outside of any try/except*: a raising
validate (or cleanup) propagates to the caller.  A `false` validation simply
moves to the next attempt; exhaustion returns `fail_safe_response`. -/
def sgrFrom (transport : Nat → Except TransportFault String)
    (fv : String → String → Except Unit Bool)
    (fc : String → String → Except Unit PyVal)
    (prompt : String) (fail_safe_response : PyVal) : Nat → Nat → EngineRun
  | _, 0 => ⟨EngineOutcome.exhausted fail_safe_response, 0, 0⟩
  | i, n + 1 =>
    match GPT_request (transport i) with
    | Except.error _ => ⟨EngineOutcome.raised, 1, 0⟩
    | Except.ok curr =>
      match fv curr prompt with
      | Except.error _ => ⟨EngineOutcome.raised, 1, 0⟩
      | Except.ok true =>
        match fc curr prompt with
        | Except.error _ => ⟨EngineOutcome.raised, 1, 1⟩
        | Except.ok r => ⟨EngineOutcome.success r, 1, 1⟩
      | Except.ok false =>
        let rest := sgrFrom transport fv fc prompt fail_safe_response (i + 1) n
        ⟨rest.outcome, rest.calls + 1, rest.cleanups⟩

/-- `safe_generate_response` (lines 311-329): the standard-tier validated
retry engine.  `repeatN` is the `repeat` parameter (default 5). -/
def safe_generate_response (transport : Nat → Except TransportFault String)
    (fv : String → String → Except Unit Bool)
    (fc : String → String → Except Unit PyVal)
    (prompt : String) (fail_safe_response : PyVal) (repeatN : Nat) : EngineRun :=
  sgrFrom transport fv fc prompt fail_safe_response 0 repeatN

/-- One attempt body of the JSON-framed engines (the `try:` block of lines
187-206 / 147-162): extract the structured "output" field from the stripped
response, validate, and on success clean up.  Any raised exception —
extraction failure, raising validate, raising cleanup — is swallowed by the
blanket `except: pass`, failing the attempt.  Returns the successful result
(if any) and how many times `func_clean_up` was invoked. -/
def jsonAttempt (fv : JValue → String → Except Unit Bool)
    (fc : JValue → String → Except Unit PyVal)
    (prompt raw : String) : Option PyVal × Nat :=
  match extractStructured raw with
  | Except.error _ => (none, 0)
  | Except.ok out =>
    match fv out prompt with
    | Except.error _ => (none, 0)
    | Except.ok false => (none, 0)
    | Except.ok true =>
      match fc out prompt with
      | Except.error _ => (none, 1)
      | Except.ok r => (some r, 1)

/-- The retry loop shared by `ChatGPT_safe_generate_response` (lines 185-208)
and `GPT4_safe_generate_response` (lines 145-164), parameterized by the
request wrapper used.  A raising request would also be caught by the `try:`
(the call sits inside it) and fail the attempt; falling out of the loop
returns the constant Python `False` — not `fail_safe_response`. -/
def jsonLoopFrom (request : Except TransportFault String → Except TransportFault String)
    (transport : Nat → Except TransportFault String)
    (fv : JValue → String → Except Unit Bool)
    (fc : JValue → String → Except Unit PyVal)
    (prompt : String) : Nat → Nat → EngineRun
  | _, 0 => ⟨EngineOutcome.exhausted (PyVal.vBool false), 0, 0⟩
  | i, n + 1 =>
    match request (transport i) with
    | Except.error _ =>
      let rest := jsonLoopFrom request transport fv fc prompt (i + 1) n
      ⟨rest.outcome, rest.calls + 1, rest.cleanups⟩
    | Except.ok raw =>
      match jsonAttempt fv fc prompt raw with
      | (some r, k) => ⟨EngineOutcome.success r, 1, k⟩
      | (none, k) =>
        let rest := jsonLoopFrom request transport fv fc prompt (i + 1) n
        ⟨rest.outcome, rest.calls + 1, rest.cleanups + k⟩

/-- The JSON instruction frame built by `ChatGPT_safe_generate_response`
(lines 176-179). -/
def cgFramePrompt (prompt special_instruction example_output : String) : String :=
  "\"\"\"\n" ++ prompt ++ "\n\"\"\"\n" ++
  "Output the response to the prompt above in json. " ++ special_instruction ++ "\n" ++
  "Example output json:\n" ++
  "\x7b\"output\": \"" ++ example_output ++ "\"\x7d"

/-- The JSON instruction frame built by `GPT4_safe_generate_response`
(lines 136-139). -/
def g4FramePrompt (prompt special_instruction example_output : String) : String :=
  "GPT-3 Prompt:\n\"\"\"\n" ++ prompt ++ "\n\"\"\"\n" ++
  "Output the response to the prompt above in json. " ++ special_instruction ++ "\n" ++
  "Example output json:\n" ++
  "\x7b\"output\": \"" ++ example_output ++ "\"\x7d"

/-- `ChatGPT_safe_generate_response` (lines 167-208): JSON-framed validated
retry on the standard-tier request.  Note `fail_safe_response` is accepted
but never used: exhaustion returns `False`. -/
def ChatGPT_safe_generate_response (transport : Nat → Except TransportFault String)
    (prompt example_output special_instruction : String) (repeatN : Nat)
    (fail_safe_response : PyVal)
    (fv : JValue → String → Except Unit Bool)
    (fc : JValue → String → Except Unit PyVal) : EngineRun :=
  jsonLoopFrom ChatGPT_request transport fv fc
    (cgFramePrompt prompt special_instruction example_output) 0 repeatN

/-- `GPT4_safe_generate_response` (lines 128-164): JSON-framed validated
retry on the advanced-tier request; same ignored `fail_safe_response`. -/
def GPT4_safe_generate_response (transport : Nat → Except TransportFault String)
    (prompt example_output special_instruction : String) (repeatN : Nat)
    (fail_safe_response : PyVal)
    (fv : JValue → String → Except Unit Bool)
    (fc : JValue → String → Except Unit PyVal) : EngineRun :=
  jsonLoopFrom GPT4_request transport fv fc
    (g4FramePrompt prompt special_instruction example_output) 0 repeatN

/-! ## Prompt templater -/

/-- Whether `pat` occurs as a contiguous substring (Python `pat in s`; for
the empty pattern only the degenerate `"" in s`, which is not used here). -/
def occursIn (pat : List Char) : List Char → Bool
  | [] => pat.isEmpty
  | c :: rest => pat.isPrefixOf (c :: rest) || occursIn pat rest

/-- Python `str.replace(pat, rep)`: scan left to right, replacing each
non-overlapping occurrence of `pat`.  Fueled; `replaceL` supplies adequate
fuel.  (The empty pattern is never used by the modelled code.) -/
def replaceGo (pat rep : List Char) : Nat → List Char → List Char
  | _, [] => []
  | 0, l => l
  | f + 1, c :: rest =>
    if pat.isPrefixOf (c :: rest) then
      rep ++ replaceGo pat rep f (List.drop pat.length (c :: rest))
    else
      c :: replaceGo pat rep f rest

def replaceL (pat rep l : List Char) : List Char :=
  replaceGo pat rep l.length l

/-- Python `str.split(sep)` for a non-empty separator: `acc` holds the
(reversed) characters of the piece being accumulated.  Fueled; `splitOnL`
supplies adequate fuel. -/
def splitGo (sep : List Char) : Nat → List Char → List Char → List (List Char)
  | _, [], acc => [acc.reverse]
  | 0, l, acc => [acc.reverse ++ l]
  | f + 1, c :: rest, acc =>
    if sep.isPrefixOf (c :: rest) then
      acc.reverse :: splitGo sep f (List.drop sep.length (c :: rest)) []
    else
      splitGo sep f rest (c :: acc)

def splitOnL (sep l : List Char) : List (List Char) :=
  splitGo sep l.length l []

/-- The placeholder token for input index `i`, Python
`f"!<INPUT \x7bcount\x7d>!"`. -/
def placeholderTok (i : Nat) : List Char :=
  ("!<INPUT " ++ toString i ++ ">!").toList

/-- The documentation marker of `generate_prompt` (line 306). -/
def cbMarker : List Char :=
  "<commentblockmarker>###</commentblockmarker>".toList

/-- The substitution loop of `generate_prompt` (lines 304-305):
`for count, i in enumerate(curr_input): prompt = prompt.replace(...)`,
carrying the running index. -/
def substAllGo : Nat → List (List Char) → List Char → List Char
  | _, [], t => t
  | i, x :: xs, t => substAllGo (i + 1) xs (replaceL (placeholderTok i) x t)

def substAll (inputs : List (List Char)) (t : List Char) : List Char :=
  substAllGo 0 inputs t

/-- Placeholder substitution performed in an explicitly given order of
indices (indices looked up in the full input list).  The code's own order is
`List.range inputs.length`; the spec asserts the order does not matter. -/
def substInOrder (inputs : List (List Char)) (order : List Nat) (t : List Char) : List Char :=
  order.foldl (fun acc i => replaceL (placeholderTok i) ((inputs.getD i [])) acc) t

/-- `generate_prompt` (lines 283-308) with the template text supplied
directly (the file read is the Prompt Store collaborator): substitute each
input into its placeholder in index order, cut at the documentation marker
when present (Python `split(marker)[1]`), and strip the result. -/
def generate_prompt (curr_input : List String) (template : String) : String :=
  let t := substAll (curr_input.map String.toList) template.toList
  let t :=
    if occursIn cbMarker t then (splitOnL cbMarker t).getD 1 []
    else t
  String.mk (stripL t)

/-! ## Embedding adapter -/

/-- The text actually sent by `get_embedding` (lines 332-338): newlines are
replaced by spaces first, and only then is emptiness tested (`if not text`),
the empty string being replaced by the fixed placeholder. -/
def get_embedding_input (text : String) : String :=
  let t := replaceL ['\n'] [' '] text.toList
  let t := if t.isEmpty then ("this is blank").toList else t
  String.mk t

/-- Newline-to-space as a pointwise character map (the form the embedding
theorems compare against). -/
def nlToSpace (s : String) : String :=
  String.mk (s.toList.map (fun c => if c = '\n' then ' ' else c))

/-! ## Helper lemmas: textual replacement -/

theorem replaceGo_of_not_occursIn (pat rep : List Char) :
    ∀ (l : List Char) (f : Nat), l.length ≤ f → occursIn pat l = false →
      replaceGo pat rep f l = l := by
  intro l
  induction l with
  | nil => intro f _ _; cases f <;> rfl
  | cons c rest ih =>
    intro f hf hocc
    cases f with
    | zero => simp at hf
    | succ g =>
      rw [occursIn] at hocc
      rcases Bool.or_eq_false_iff.mp hocc with ⟨h1, h2⟩
      have hlen : rest.length ≤ g := Nat.succ_le_succ_iff.mp (by simpa using hf)
      simp [replaceGo, h1, ih g hlen h2]

/-- A pattern with no occurrence is left verbatim by `str.replace`. -/
theorem replaceL_of_not_occursIn (pat rep l : List Char)
    (h : occursIn pat l = false) : replaceL pat rep l = l :=
  replaceGo_of_not_occursIn pat rep l l.length (Nat.le_refl _) h

theorem replaceGo_newline :
    ∀ (l : List Char) (f : Nat), l.length ≤ f →
      replaceGo ['\n'] [' '] f l = l.map (fun c => if c = '\n' then ' ' else c) := by
  intro l
  induction l with
  | nil => intro f _; cases f <;> rfl
  | cons c rest ih =>
    intro f hf
    cases f with
    | zero => simp at hf
    | succ g =>
      have hlen : rest.length ≤ g := Nat.succ_le_succ_iff.mp (by simpa using hf)
      by_cases hc : c = '\n'
      · subst hc
        have hp : (['\n'] : List Char).isPrefixOf ('\n' :: rest) = true := by
          simp [List.isPrefixOf]
        simp [replaceGo, hp, ih g hlen]
      · have hp : (['\n'] : List Char).isPrefixOf (c :: rest) = false := by
          simp [List.isPrefixOf]
          exact fun h => absurd h.symm hc
        simp [replaceGo, hp, ih g hlen, hc]

/-- Replacing the single character `'\n'` by `' '` is the pointwise map. -/
theorem replaceL_newline (l : List Char) :
    replaceL ['\n'] [' '] l = l.map (fun c => if c = '\n' then ' ' else c) :=
  replaceGo_newline l l.length (Nat.le_refl _)

/-! ## Helper lemmas: retry engines -/

theorem sgrFrom_validate_false
    (transport : Nat → Except TransportFault String)
    (fv : String → String → Except Unit Bool)
    (fc : String → String → Except Unit PyVal)
    (prompt : String) (fs : PyVal)
    (h : ∀ s, fv s prompt = Except.ok false) :
    ∀ (n i : Nat), sgrFrom transport fv fc prompt fs i n =
      ⟨EngineOutcome.exhausted fs, n, 0⟩ := by
  intro n
  induction n with
  | zero => intro i; rfl
  | succ m ih =>
    intro i
    cases htr : transport i with
    | ok s => simp [sgrFrom, GPT_request, htr, h, ih (i + 1)]
    | error e => simp [sgrFrom, GPT_request, htr, h, ih (i + 1)]

theorem jsonAttempt_of_validate_false
    (fv : JValue → String → Except Unit Bool)
    (fc : JValue → String → Except Unit PyVal) (prompt : String)
    (h : ∀ v, fv v prompt = Except.ok false) (raw : String) :
    jsonAttempt fv fc prompt raw = (none, 0) := by
  unfold jsonAttempt
  cases hx : extractStructured raw with
  | error e => rfl
  | ok out => simp [h]

theorem jsonAttempt_of_validate_raises
    (fv : JValue → String → Except Unit Bool)
    (fc : JValue → String → Except Unit PyVal) (prompt : String)
    (h : ∀ v, fv v prompt = Except.error ()) (raw : String) :
    jsonAttempt fv fc prompt raw = (none, 0) := by
  unfold jsonAttempt
  cases hx : extractStructured raw with
  | error e => rfl
  | ok out => simp [h]

theorem jsonLoopFrom_noSuccess
    (request : Except TransportFault String → Except TransportFault String)
    (transport : Nat → Except TransportFault String)
    (fv : JValue → String → Except Unit Bool)
    (fc : JValue → String → Except Unit PyVal) (prompt : String)
    (h : ∀ raw, jsonAttempt fv fc prompt raw = (none, 0)) :
    ∀ (n i : Nat), jsonLoopFrom request transport fv fc prompt i n =
      ⟨EngineOutcome.exhausted (PyVal.vBool false), n, 0⟩ := by
  intro n
  induction n with
  | zero => intro i; rfl
  | succ m ih =>
    intro i
    cases hreq : request (transport i) with
    | ok raw => simp [jsonLoopFrom, hreq, h, ih (i + 1)]
    | error e => simp [jsonLoopFrom, hreq, ih (i + 1)]

theorem sgrFrom_cleanup_once
    (transport : Nat → Except TransportFault String)
    (fv : String → String → Except Unit Bool)
    (fc : String → String → Except Unit PyVal)
    (prompt : String) (fs : PyVal)
    (hfc : ∀ s, ∃ r, fc s prompt = Except.ok r) :
    ∀ (n i : Nat),
      (sgrFrom transport fv fc prompt fs i n).cleanups ≤ 1 ∧
      ((sgrFrom transport fv fc prompt fs i n).cleanups = 1 ↔
        ∃ r, (sgrFrom transport fv fc prompt fs i n).outcome = EngineOutcome.success r) := by
  intro n
  induction n with
  | zero =>
    intro i
    exact ⟨Nat.zero_le 1, by simp [sgrFrom]⟩
  | succ m ih =>
    intro i
    cases htr : transport i with
    | ok s =>
      cases hfv : fv s prompt with
      | error e => simp [sgrFrom, GPT_request, htr, hfv]
      | ok b =>
        cases b with
        | true =>
          obtain ⟨r, hr⟩ := hfc s
          simp [sgrFrom, GPT_request, htr, hfv, hr]
        | false =>
          have := ih (i + 1)
          simp [sgrFrom, GPT_request, htr, hfv]
          exact this
    | error e =>
      cases hfv : fv ("TOKEN LIMIT EXCEEDED") prompt with
      | error e2 => simp [sgrFrom, GPT_request, htr, hfv]
      | ok b =>
        cases b with
        | true =>
          obtain ⟨r, hr⟩ := hfc ("TOKEN LIMIT EXCEEDED")
          simp [sgrFrom, GPT_request, htr, hfv, hr]
        | false =>
          have := ih (i + 1)
          simp [sgrFrom, GPT_request, htr, hfv]
          exact this

theorem jsonAttempt_total_cleanup
    (fv : JValue → String → Except Unit Bool)
    (fc : JValue → String → Except Unit PyVal) (prompt : String)
    (hfc : ∀ v, ∃ r, fc v prompt = Except.ok r) (raw : String) :
    jsonAttempt fv fc prompt raw = (none, 0) ∨
      ∃ r, jsonAttempt fv fc prompt raw = (some r, 1) := by
  unfold jsonAttempt
  cases hx : extractStructured raw with
  | error e => exact Or.inl rfl
  | ok out =>
    cases hfv : fv out prompt with
    | error e => simp [hfv]
    | ok b =>
      cases b with
      | false => simp [hfv]
      | true =>
        obtain ⟨r, hr⟩ := hfc out
        simp [hfv, hr]

theorem jsonLoopFrom_cleanup_once
    (request : Except TransportFault String → Except TransportFault String)
    (transport : Nat → Except TransportFault String)
    (fv : JValue → String → Except Unit Bool)
    (fc : JValue → String → Except Unit PyVal) (prompt : String)
    (hfc : ∀ v, ∃ r, fc v prompt = Except.ok r) :
    ∀ (n i : Nat),
      (jsonLoopFrom request transport fv fc prompt i n).cleanups ≤ 1 ∧
      ((jsonLoopFrom request transport fv fc prompt i n).cleanups = 1 ↔
        ∃ r, (jsonLoopFrom request transport fv fc prompt i n).outcome =
          EngineOutcome.success r) := by
  intro n
  induction n with
  | zero =>
    intro i
    exact ⟨Nat.zero_le 1, by simp [jsonLoopFrom]⟩
  | succ m ih =>
    intro i
    cases hreq : request (transport i) with
    | error e =>
      have := ih (i + 1)
      simp [jsonLoopFrom, hreq]
      exact this
    | ok raw =>
      rcases jsonAttempt_total_cleanup fv fc prompt hfc raw with hat | ⟨r, hat⟩
      · have := ih (i + 1)
        simp [jsonLoopFrom, hreq, hat]
        exact this
      · simp [jsonLoopFrom, hreq, hat]

/-! ## Claim theorems -/

/-- Claim C1, counterexample: with all five attempts failing validation and a
configured fail-safe of `"error"`, the JSON-framed standard variant returns
the Python constant `False` — not the configured `fail_safe_value` — so not
every validated-retry entry point returns the configured fail-safe. -/
theorem C1_cex_json_engine_ignores_fail_safe :
    ChatGPT_safe_generate_response (fun _ => Except.ok ("resp")) ("p") ("eo") ("si") 3
        (PyVal.vStr ("error"))
        (fun _ _ => Except.ok false) (fun _ _ => Except.ok (PyVal.vStr ("x"))) =
      ⟨EngineOutcome.exhausted (PyVal.vBool false), 3, 0⟩ ∧
    PyVal.vBool false ≠ PyVal.vStr ("error") :=
  ⟨rfl, by decide⟩

/-- Claim C1, amended: when every attempt fails validation, the standard-tier
engine `safe_generate_response` returns exactly the configured
`fail_safe_response` without raising, while the JSON-framed standard and
advanced variants return the constant `False`, ignoring their configured
`fail_safe_response`; none of them raises. -/
theorem C1_amended_exhaustion_values :
    (∀ (transport : Nat → Except TransportFault String)
       (fv : String → String → Except Unit Bool)
       (fc : String → String → Except Unit PyVal)
       (prompt : String) (fs : PyVal) (n : Nat),
       (∀ s p, fv s p = Except.ok false) →
       safe_generate_response transport fv fc prompt fs n =
         ⟨EngineOutcome.exhausted fs, n, 0⟩) ∧
    (∀ (transport : Nat → Except TransportFault String)
       (prompt eo si : String) (n : Nat) (fs : PyVal)
       (fv : JValue → String → Except Unit Bool)
       (fc : JValue → String → Except Unit PyVal),
       (∀ v p, fv v p = Except.ok false) →
       ChatGPT_safe_generate_response transport prompt eo si n fs fv fc =
         ⟨EngineOutcome.exhausted (PyVal.vBool false), n, 0⟩) ∧
    (∀ (transport : Nat → Except TransportFault String)
       (prompt eo si : String) (n : Nat) (fs : PyVal)
       (fv : JValue → String → Except Unit Bool)
       (fc : JValue → String → Except Unit PyVal),
       (∀ v p, fv v p = Except.ok false) →
       GPT4_safe_generate_response transport prompt eo si n fs fv fc =
         ⟨EngineOutcome.exhausted (PyVal.vBool false), n, 0⟩) := by
  refine ⟨?_, ?_, ?_⟩
  · intro transport fv fc prompt fs n h
    exact sgrFrom_validate_false transport fv fc prompt fs (fun s => h s prompt) n 0
  · intro transport prompt eo si n fs fv fc h
    exact jsonLoopFrom_noSuccess ChatGPT_request transport fv fc _
      (jsonAttempt_of_validate_false fv fc _ (fun v => h v _)) n 0
  · intro transport prompt eo si n fs fv fc h
    exact jsonLoopFrom_noSuccess GPT4_request transport fv fc _
      (jsonAttempt_of_validate_false fv fc _ (fun v => h v _)) n 0

theorem C1_amended_exhaustion_values_witness :
    safe_generate_response (fun _ => Except.ok ("r")) (fun _ _ => Except.ok false)
        (fun _ _ => Except.ok (PyVal.vStr ("c"))) ("p") (PyVal.vStr ("fs")) 4 =
      ⟨EngineOutcome.exhausted (PyVal.vStr ("fs")), 4, 0⟩ ∧
    GPT4_safe_generate_response (fun _ => Except.ok ("r")) ("p") ("eo") ("si") 2
        (PyVal.vStr ("fs"))
        (fun _ _ => Except.ok false) (fun _ _ => Except.ok (PyVal.vStr ("c"))) =
      ⟨EngineOutcome.exhausted (PyVal.vBool false), 2, 0⟩ :=
  ⟨C1_amended_exhaustion_values.1 _ _ _ _ _ 4 (fun _ _ => rfl),
   C1_amended_exhaustion_values.2.2 _ _ _ _ 2 _ _ _ (fun _ _ => rfl)⟩

/-- Claim C2, counterexample: the standard-tier entry points do not let a
transport failure propagate — on a rate-limit fault both return a sentinel
`ok` string rather than the error. -/
theorem C2_cex_standard_tier_swallows :
    GPT_request (Except.error TransportFault.rateLimit) =
      Except.ok ("TOKEN LIMIT EXCEEDED") ∧
    ChatGPT_request (Except.error TransportFault.rateLimit) =
      Except.ok ("ChatGPT ERROR") :=
  ⟨rfl, rfl⟩

/-- Claim C2, amended: on any transport failure, the advanced-tier entry
point logs and returns the fixed sentinel "ChatGPT ERROR" instead of raising;
the standard-tier entry points likewise never propagate the error:
`ChatGPT_request` returns "ChatGPT ERROR" and `GPT_request` (the one used by
the retry engine) returns "TOKEN LIMIT EXCEEDED".  All three always return a
string. -/
theorem C2_amended_sentinel_on_fault :
    (∀ f : TransportFault, GPT4_request (Except.error f) = Except.ok ("ChatGPT ERROR")) ∧
    (∀ f : TransportFault, ChatGPT_request (Except.error f) = Except.ok ("ChatGPT ERROR")) ∧
    (∀ f : TransportFault, GPT_request (Except.error f) = Except.ok ("TOKEN LIMIT EXCEEDED")) ∧
    (∀ t : Except TransportFault String, ∃ s, GPT4_request t = Except.ok s) ∧
    (∀ t : Except TransportFault String, ∃ s, ChatGPT_request t = Except.ok s) ∧
    (∀ t : Except TransportFault String, ∃ s, GPT_request t = Except.ok s) := by
  refine ⟨fun f => rfl, fun f => rfl, fun f => rfl, ?_, ?_, ?_⟩
  · intro t; cases t with
    | ok s => exact ⟨s, rfl⟩
    | error f => exact ⟨("ChatGPT ERROR"), rfl⟩
  · intro t; cases t with
    | ok s => exact ⟨s, rfl⟩
    | error f => exact ⟨("ChatGPT ERROR"), rfl⟩
  · intro t; cases t with
    | ok s => exact ⟨s, rfl⟩
    | error f => exact ⟨("TOKEN LIMIT EXCEEDED"), rfl⟩

/-- Claim C4, counterexample: in `safe_generate_response` a raising
`func_validate` escapes to the caller on the very first attempt (outcome
`raised` after exactly one transport call), so a validate exception does
propagate from a validated-retry entry point. -/
theorem C4_cex_sgr_validate_exception_propagates :
    safe_generate_response (fun _ => Except.ok ("r")) (fun _ _ => Except.error ())
        (fun _ _ => Except.ok (PyVal.vStr ("c"))) ("p") (PyVal.vStr ("error")) 5 =
      ⟨EngineOutcome.raised, 1, 0⟩ :=
  rfl

/-- Claim C4, amended: in the JSON-framed variants a raising validate is
caught by the blanket `except` and merely consumes the attempt (all attempts
exhaust, returning `False`); in the standard-tier engine
`safe_generate_response` the loop body has no exception handler, so a raising
validate propagates immediately after the first transport call. -/
theorem C4_amended_validate_exception_handling :
    (∀ (transport : Nat → Except TransportFault String)
       (prompt eo si : String) (n : Nat) (fs : PyVal)
       (fv : JValue → String → Except Unit Bool)
       (fc : JValue → String → Except Unit PyVal),
       (∀ v p, fv v p = Except.error ()) →
       ChatGPT_safe_generate_response transport prompt eo si n fs fv fc =
         ⟨EngineOutcome.exhausted (PyVal.vBool false), n, 0⟩) ∧
    (∀ (transport : Nat → Except TransportFault String)
       (prompt eo si : String) (n : Nat) (fs : PyVal)
       (fv : JValue → String → Except Unit Bool)
       (fc : JValue → String → Except Unit PyVal),
       (∀ v p, fv v p = Except.error ()) →
       GPT4_safe_generate_response transport prompt eo si n fs fv fc =
         ⟨EngineOutcome.exhausted (PyVal.vBool false), n, 0⟩) ∧
    (∀ (transport : Nat → Except TransportFault String)
       (fv : String → String → Except Unit Bool)
       (fc : String → String → Except Unit PyVal)
       (prompt : String) (fs : PyVal) (n : Nat),
       (∀ s p, fv s p = Except.error ()) → 1 ≤ n →
       safe_generate_response transport fv fc prompt fs n =
         ⟨EngineOutcome.raised, 1, 0⟩) := by
  refine ⟨?_, ?_, ?_⟩
  · intro transport prompt eo si n fs fv fc h
    exact jsonLoopFrom_noSuccess ChatGPT_request transport fv fc _
      (jsonAttempt_of_validate_raises fv fc _ (fun v => h v _)) n 0
  · intro transport prompt eo si n fs fv fc h
    exact jsonLoopFrom_noSuccess GPT4_request transport fv fc _
      (jsonAttempt_of_validate_raises fv fc _ (fun v => h v _)) n 0
  · intro transport fv fc prompt fs n h hn
    cases n with
    | zero => exact absurd hn (by decide)
    | succ m =>
      cases htr : transport 0 with
      | ok s => simp [safe_generate_response, sgrFrom, GPT_request, htr, h]
      | error e => simp [safe_generate_response, sgrFrom, GPT_request, htr, h]

theorem C4_amended_validate_exception_handling_witness :
    ChatGPT_safe_generate_response (fun _ => Except.ok ("r")) ("p") ("eo") ("si") 3
        (PyVal.vStr ("fs"))
        (fun _ _ => Except.error ()) (fun _ _ => Except.ok (PyVal.vStr ("c"))) =
      ⟨EngineOutcome.exhausted (PyVal.vBool false), 3, 0⟩ ∧
    safe_generate_response (fun _ => Except.ok ("r")) (fun _ _ => Except.error ())
        (fun _ _ => Except.ok (PyVal.vStr ("c"))) ("p") (PyVal.vStr ("fs")) 2 =
      ⟨EngineOutcome.raised, 1, 0⟩ :=
  ⟨C4_amended_validate_exception_handling.1 _ _ _ _ 3 _ _ _ (fun _ _ => rfl),
   C4_amended_validate_exception_handling.2.2 _ _ _ _ _ 2 (fun _ _ => rfl) (by decide)⟩

/-- Claim C5, confirmed: with a validate function that always returns false,
`safe_generate_response` with `repeat = N ≥ 1` performs exactly N transport
calls and returns the fail-safe value (outcome `exhausted`). -/
theorem C5_retry_bound :
    ∀ (transport : Nat → Except TransportFault String)
      (fv : String → String → Except Unit Bool)
      (fc : String → String → Except Unit PyVal)
      (prompt : String) (fs : PyVal) (n : Nat),
      (∀ s p, fv s p = Except.ok false) → 1 ≤ n →
      (safe_generate_response transport fv fc prompt fs n).calls = n ∧
      (safe_generate_response transport fv fc prompt fs n).outcome =
        EngineOutcome.exhausted fs := by
  intro transport fv fc prompt fs n h _
  rw [safe_generate_response,
    sgrFrom_validate_false transport fv fc prompt fs (fun s => h s prompt) n 0]
  exact ⟨rfl, rfl⟩

theorem C5_retry_bound_witness :
    (safe_generate_response (fun _ => Except.ok ("r")) (fun _ _ => Except.ok false)
        (fun _ _ => Except.ok (PyVal.vStr ("c"))) ("p") (PyVal.vStr ("fs")) 3).calls = 3 ∧
    (safe_generate_response (fun _ => Except.ok ("r")) (fun _ _ => Except.ok false)
        (fun _ _ => Except.ok (PyVal.vStr ("c"))) ("p") (PyVal.vStr ("fs")) 3).outcome =
      EngineOutcome.exhausted (PyVal.vStr ("fs")) :=
  C5_retry_bound _ _ _ _ _ 3 (fun _ _ => rfl) (by decide)

/-- Claim C3, confirmed: with a (non-raising) cleanup function, each
validated-retry engine invokes cleanup at most once, and invokes it exactly
once precisely when the run succeeds — i.e. only after a candidate passed
validation.  In the concrete scenario where validation first succeeds on the
2nd attempt of 5, each engine makes exactly 2 transport calls, applies
cleanup once to the 2nd candidate, and returns its result immediately. -/
theorem C3_cleanup_once_after_validation :
    (∀ (transport : Nat → Except TransportFault String)
       (fv : String → String → Except Unit Bool)
       (fc : String → String → Except Unit PyVal)
       (prompt : String) (fs : PyVal) (n : Nat),
       (∀ s p, ∃ r, fc s p = Except.ok r) →
       (safe_generate_response transport fv fc prompt fs n).cleanups ≤ 1 ∧
       ((safe_generate_response transport fv fc prompt fs n).cleanups = 1 ↔
         ∃ r, (safe_generate_response transport fv fc prompt fs n).outcome =
           EngineOutcome.success r)) ∧
    (∀ (transport : Nat → Except TransportFault String)
       (prompt eo si : String) (n : Nat) (fs : PyVal)
       (fv : JValue → String → Except Unit Bool)
       (fc : JValue → String → Except Unit PyVal),
       (∀ v p, ∃ r, fc v p = Except.ok r) →
       (ChatGPT_safe_generate_response transport prompt eo si n fs fv fc).cleanups ≤ 1 ∧
       ((ChatGPT_safe_generate_response transport prompt eo si n fs fv fc).cleanups = 1 ↔
         ∃ r, (ChatGPT_safe_generate_response transport prompt eo si n fs fv fc).outcome =
           EngineOutcome.success r)) ∧
    safe_generate_response
        (fun i => Except.ok (if i = 0 then ("a") else ("b")))
        (fun s _ => Except.ok (s == ("b")))
        (fun s _ => Except.ok (PyVal.vStr (s ++ ("!"))))
        ("p") (PyVal.vStr ("error")) 5 =
      ⟨EngineOutcome.success (PyVal.vStr ("b!")), 2, 1⟩ ∧
    ChatGPT_safe_generate_response
        (fun i => Except.ok
          (if i = 0 then ("\x7b\"output\": \"a\"\x7d") else ("\x7b\"output\": \"b\"\x7d")))
        ("p") ("eo") ("si") 5 (PyVal.vStr ("error"))
        (fun v _ => Except.ok (match v with | JValue.jstr s => s == ("b") | _ => false))
        (fun v _ => Except.ok
          (match v with | JValue.jstr s => PyVal.vStr (s ++ ("!")) | _ => PyVal.vBool false)) =
      ⟨EngineOutcome.success (PyVal.vStr ("b!")), 2, 1⟩ := by
  refine ⟨?_, ?_, rfl, rfl⟩
  · intro transport fv fc prompt fs n h
    exact sgrFrom_cleanup_once transport fv fc prompt fs (fun s => h s prompt) n 0
  · intro transport prompt eo si n fs fv fc h
    exact jsonLoopFrom_cleanup_once ChatGPT_request transport fv fc _
      (fun v => h v _) n 0

theorem C3_cleanup_once_after_validation_witness :
    ((safe_generate_response (fun _ => Except.ok ("r")) (fun _ _ => Except.ok true)
        (fun s _ => Except.ok (PyVal.vStr s)) ("p") (PyVal.vStr ("fs")) 3).cleanups ≤ 1 ∧
     ((safe_generate_response (fun _ => Except.ok ("r")) (fun _ _ => Except.ok true)
        (fun s _ => Except.ok (PyVal.vStr s)) ("p") (PyVal.vStr ("fs")) 3).cleanups = 1 ↔
       ∃ r, (safe_generate_response (fun _ => Except.ok ("r")) (fun _ _ => Except.ok true)
        (fun s _ => Except.ok (PyVal.vStr s)) ("p") (PyVal.vStr ("fs")) 3).outcome =
         EngineOutcome.success r)) :=
  C3_cleanup_once_after_validation.1 _ _ _ _ _ 3 (fun s _ => ⟨PyVal.vStr s, rfl⟩)

/-- Claim C9, confirmed: the embedding entry point never sends a newline
(each internal line break is replaced by a single space), and the empty
input is replaced by the fixed placeholder "this is blank". -/
theorem C9_embedding_newlines_and_blank :
    (∀ text : String, ('\n') ∉ (get_embedding_input text).toList) ∧
    get_embedding_input ("") = ("this is blank") ∧
    get_embedding_input ("a\nb\nc") = ("a b c") := by
  refine ⟨?_, rfl, rfl⟩
  intro text
  unfold get_embedding_input
  rw [replaceL_newline]
  by_cases he : (text.toList.map fun c => if c = '\n' then ' ' else c).isEmpty
  · simp only [he, if_pos]
    decide
  · simp only [he, if_neg, Bool.false_eq_true, not_false_eq_true]
    intro hmem
    rcases List.mem_map.mp hmem with ⟨c, _, hc⟩
    by_cases h : c = '\n'
    · rw [if_pos h] at hc
      exact absurd hc (by decide)
    · rw [if_neg h] at hc
      exact h hc

/-- Claim C10, confirmed: emptiness is tested only after newline
replacement — every non-empty input is sent as its pointwise
newline-to-space image (never the placeholder): an input of only newlines
becomes a run of spaces, whitespace-only input is sent as-is; only the
exactly-empty string becomes "this is blank". -/
theorem C10_emptiness_check_after_replacement :
    (∀ text : String, text ≠ ("") → get_embedding_input text = nlToSpace text) ∧
    get_embedding_input ("\n\n") = ("  ") ∧
    get_embedding_input ("   ") = ("   ") ∧
    get_embedding_input ("") = ("this is blank") := by
  refine ⟨?_, rfl, rfl, rfl⟩
  intro text htext
  unfold get_embedding_input
  rw [replaceL_newline]
  have hne : text.toList ≠ [] := by
    intro h
    apply htext
    cases text with
    | mk l =>
      have hl : l = [] := h
      subst hl
      rfl
  have he : (text.toList.map fun c => if c = '\n' then ' ' else c).isEmpty = false := by
    cases hl : text.toList with
    | nil => exact absurd hl hne
    | cons c rest => rfl
  simp only [he, if_neg, Bool.false_eq_true, not_false_eq_true]
  rfl

theorem C10_emptiness_check_after_replacement_witness :
    get_embedding_input ("\n") = nlToSpace ("\n") :=
  C10_emptiness_check_after_replacement.1 ("\n") (by decide)

/-! ## Helper lemmas: substitution order -/

theorem substAllGo_eq_foldl_range' (full : List (List Char)) :
    ∀ (xs : List (List Char)) (i : Nat) (t : List Char),
      (∀ j, j < xs.length → full.getD (i + j) [] = xs.getD j []) →
      substAllGo i xs t =
        (List.range' i xs.length).foldl
          (fun acc k => replaceL (placeholderTok k) (full.getD k []) acc) t := by
  intro xs
  induction xs with
  | nil => intro i t _; rfl
  | cons x xs ih =>
    intro i t h
    have h0 : full.getD i [] = x := by simpa using h 0 (by simp)
    rw [substAllGo, List.length_cons, List.range'_succ, List.foldl_cons, h0]
    exact ih (i + 1) (replaceL (placeholderTok i) x t)
      (fun j hj => by
        have := h (j + 1) (by simpa using Nat.succ_lt_succ hj)
        simpa [Nat.add_assoc, Nat.add_comm 1 j] using this)

/-- The code's substitution loop is the in-order fold over indices
`0, 1, …, |inputs| - 1`. -/
theorem substAll_eq_substInOrder_range (inputs : List (List Char)) (t : List Char) :
    substAll inputs t = substInOrder inputs (List.range inputs.length) t := by
  rw [substAll, substInOrder, List.range_eq_range']
  exact substAllGo_eq_foldl_range' inputs inputs 0 t (fun j hj => by simp)

/-- Claim C8, counterexample: substitution is not order-independent.  With
template `!<INPUT 0>!` and inputs `["!<INPUT 1>!", "X"]`, replacing index 0
first and then index 1 yields `"X"` (this is what the code computes), while
replacing index 1 first and then index 0 yields `"!<INPUT 1>!"`. -/
theorem C8_cex_substitution_order_dependent :
    substInOrder [("!<INPUT 1>!").toList, ("X").toList] [0, 1] ("!<INPUT 0>!").toList =
      ("X").toList ∧
    substInOrder [("!<INPUT 1>!").toList, ("X").toList] [1, 0] ("!<INPUT 0>!").toList =
      ("!<INPUT 1>!").toList ∧
    ("X").toList ≠ ("!<INPUT 1>!").toList ∧
    generate_prompt [("!<INPUT 1>!"), ("X")] ("!<INPUT 0>!") = ("X") :=
  ⟨rfl, rfl, by decide, rfl⟩

/-- Claim C8, amended: each `inputs[i]` textually replaces every occurrence
of the placeholder token for index `i`, the replacements being performed
sequentially in increasing index order; a placeholder token with no
occurrence is left verbatim rather than raising an error.  The substitution
is, however, not order-independent in general: when an input value itself
contains a placeholder token for another index, a different replacement
order can yield a different rendered string. -/
theorem C8_amended_substitution :
    (∀ (inputs : List (List Char)) (t : List Char),
       substAll inputs t = substInOrder inputs (List.range inputs.length) t) ∧
    (∀ (i : Nat) (rep t : List Char),
       occursIn (placeholderTok i) t = false → replaceL (placeholderTok i) rep t = t) ∧
    substAll [("A").toList] ("x !<INPUT 0>! y !<INPUT 0>! z").toList =
      ("x A y A z").toList ∧
    generate_prompt [("A")] ("x !<INPUT 0>! y !<INPUT 5>! z") = ("x A y !<INPUT 5>! z") :=
  ⟨substAll_eq_substInOrder_range,
   fun i rep t h => replaceL_of_not_occursIn (placeholderTok i) rep t h,
   rfl, rfl⟩

theorem C8_amended_substitution_witness :
    replaceL (placeholderTok 5) ("A").toList ("no placeholder here").toList =
      ("no placeholder here").toList :=
  C8_amended_substitution.2.1 5 (("A").toList) (("no placeholder here").toList) (by decide)

/-! ## Helper lemmas: extraction slicing -/

theorem lastIdxOf_eq_none_of_not_mem (ch : Char) :
    ∀ (l : List Char), ch ∉ l → lastIdxOf ch l = none := by
  intro l
  induction l with
  | nil => intro _; rfl
  | cons c rest ih =>
    intro h
    have hrest : ch ∉ rest := fun hm => h (List.mem_cons_of_mem c hm)
    have hc : ¬(c = ch) := fun hc => h (hc ▸ List.mem_cons_self c rest)
    rw [lastIdxOf, ih hrest, if_neg hc]

theorem lastIdxOf_append_of_not_mem (ch : Char) (t : List Char) (ht : ch ∉ t) :
    ∀ (l : List Char), lastIdxOf ch (l ++ t) = lastIdxOf ch l := by
  intro l
  induction l with
  | nil => simpa using lastIdxOf_eq_none_of_not_mem ch t ht
  | cons c rest ih => rw [List.cons_append, lastIdxOf, ih, lastIdxOf]

theorem lastIdxOf_lt_length (ch : Char) :
    ∀ (l : List Char) (i : Nat), lastIdxOf ch l = some i → i < l.length := by
  intro l
  induction l with
  | nil => intro i h; exact absurd h (by simp [lastIdxOf])
  | cons c rest ih =>
    intro i h
    rw [lastIdxOf] at h
    cases hr : lastIdxOf ch rest with
    | some j =>
      rw [hr] at h
      cases h
      exact Nat.succ_lt_succ (ih j hr)
    | none =>
      rw [hr] at h
      by_cases hc : c = ch
      · rw [if_pos hc] at h
        cases h
        exact Nat.succ_pos _
      · rw [if_neg hc] at h
        exact absurd h (by simp)

theorem sliceToLastBrace_append (t : List Char) (ht : rbrace ∉ t) (l : List Char) :
    sliceToLastBrace (l ++ t) = sliceToLastBrace l := by
  rw [sliceToLastBrace, sliceToLastBrace, lastIdxOf_append_of_not_mem rbrace t ht l]
  cases hl : lastIdxOf rbrace l with
  | none => simp
  | some i =>
    have hi : i + 1 ≤ l.length := lastIdxOf_lt_length rbrace l i hl
    simp only [List.take_append_eq_append_take, Nat.sub_eq_zero_of_le hi,
      List.take_zero, List.append_nil]

/-- Trailing-whitespace stripping never changes the slice up to the last
closing brace. -/
theorem sliceToLastBrace_rstrip (y : List Char) :
    sliceToLastBrace ((y.reverse.dropWhile isPyWs).reverse) = sliceToLastBrace y := by
  have hdecomp : y = (y.reverse.dropWhile isPyWs).reverse ++
      (y.reverse.takeWhile isPyWs).reverse := by
    calc y = y.reverse.reverse := (List.reverse_reverse _).symm
      _ = (y.reverse.takeWhile isPyWs ++ y.reverse.dropWhile isPyWs).reverse := by
            rw [List.takeWhile_append_dropWhile]
      _ = _ := by rw [List.reverse_append]
  have hws : rbrace ∉ (y.reverse.takeWhile isPyWs).reverse := by
    intro hmem
    have : isPyWs rbrace = true :=
      List.mem_takeWhile_imp (List.mem_reverse.mp hmem)
    exact absurd this (by decide)
  calc sliceToLastBrace ((y.reverse.dropWhile isPyWs).reverse)
      = sliceToLastBrace ((y.reverse.dropWhile isPyWs).reverse ++
          (y.reverse.takeWhile isPyWs).reverse) :=
        (sliceToLastBrace_append _ hws _).symm
    _ = sliceToLastBrace y := by rw [← hdecomp]

theorem sliceToLastBrace_stripL (l : List Char) :
    sliceToLastBrace (stripL l) = sliceToLastBrace (l.dropWhile isPyWs) := by
  rw [stripL]
  exact sliceToLastBrace_rstrip (l.dropWhile isPyWs)

/-- Characters after the last closing brace never influence extraction:
appending brace-free text to a raw response leaves `extractStructured`
unchanged. -/
theorem extractStructured_append (r t : String) (ht : rbrace ∉ t.toList) :
    extractStructured (r ++ t) = extractStructured r := by
  have hslice : sliceToLastBrace (stripL (r ++ t).toList) =
      sliceToLastBrace (stripL r.toList) := by
    rw [sliceToLastBrace_stripL, sliceToLastBrace_stripL]
    have hdata : (r ++ t).toList = r.toList ++ t.toList := String.data_append r t
    rw [hdata, List.dropWhile_append]
    by_cases he : (r.toList.dropWhile isPyWs).isEmpty
    · rw [if_pos he]
      have h1 : lastIdxOf rbrace (t.toList.dropWhile isPyWs) = none :=
        lastIdxOf_eq_none_of_not_mem rbrace _
          (fun hm => ht (List.dropWhile_subset isPyWs hm))
      have h2 : lastIdxOf rbrace (r.toList.dropWhile isPyWs) = none := by
        rw [List.isEmpty_iff.mp he]; rfl
      rw [sliceToLastBrace, sliceToLastBrace, h1, h2]
      simp
    · rw [if_neg he]
      exact sliceToLastBrace_append t.toList ht _
  rw [extractStructured, extractStructured, hslice]

/-- Claim C6, counterexample: on the spec's own example input the code
raises an extraction error instead of yielding "42" — the slice up to the
last closing brace still contains the leading prose, which `json.loads`
rejects. -/
theorem C6_cex_leading_prose_extraction_fails :
    extractStructured ("Sure, here you go: \x7b\"output\": \"42\"\x7d Thanks!") =
      Except.error () :=
  rfl

/-- Claim C6, amended: extraction takes everything up to and including the
last closing brace (all text after that position is discarded — appending
brace-free text never changes the result) and parses that whole prefix as the
payload, so leading prose before the payload raises `ExtractionError`; with
no leading prose the "output" field is returned (trailing prose is
tolerated), and a missing closing brace, an unparsable payload, or a missing
field raise `ExtractionError`. -/
theorem C6_amended_extraction :
    (∀ (r t : String), rbrace ∉ t.toList →
       extractStructured (r ++ t) = extractStructured r) ∧
    extractStructured ("\x7b\"output\": \"42\"\x7d Thanks!") =
      Except.ok (JValue.jstr ("42")) ∧
    extractStructured ("Sure: \x7b\"output\": \"42\"\x7d") = Except.error () ∧
    extractStructured ("no closing brace") = Except.error () ∧
    extractStructured ("\x7boops\x7d") = Except.error () ∧
    extractStructured ("\x7b\"out\": \"x\"\x7d") = Except.error () :=
  ⟨extractStructured_append, rfl, rfl, rfl, rfl, rfl⟩

theorem C6_amended_extraction_witness :
    extractStructured (("\x7b\"output\": \"1\"\x7d") ++ (" trailing prose")) =
      extractStructured ("\x7b\"output\": \"1\"\x7d") :=
  C6_amended_extraction.1 ("\x7b\"output\": \"1\"\x7d") (" trailing prose") (by decide)

/-! ## Helper lemmas: marker occurrence and split -/

theorem isPrefixOf_append_self (M b : List Char) : M.isPrefixOf (M ++ b) = true :=
  List.isPrefixOf_iff_prefix.mpr (List.prefix_append M b)

theorem occursIn_of_isPrefixOf (M v : List Char) (h : M.isPrefixOf v = true) :
    occursIn M v = true := by
  cases v with
  | nil =>
    cases M with
    | nil => rfl
    | cons m ms => exact absurd h (by simp [List.isPrefixOf])
  | cons c rest => rw [occursIn, h, Bool.true_or]

theorem occursIn_append_right (M v : List Char) (h : occursIn M v = true) :
    ∀ u : List Char, occursIn M (u ++ v) = true := by
  intro u
  induction u with
  | nil => simpa using h
  | cons c u' ih => rw [List.cons_append, occursIn, ih, Bool.or_true]

theorem occursIn_append_self (M b : List Char) (a : List Char) :
    occursIn M (a ++ (M ++ b)) = true :=
  occursIn_append_right M (M ++ b)
    (occursIn_of_isPrefixOf M (M ++ b) (isPrefixOf_append_self M b)) a

/-- `m` has no nontrivial border: no proper nonempty suffix of `m` is also a
prefix of `m` (stated via take/drop). -/
def borderFree (m : List Char) : Prop :=
  ∀ k, k < m.length → (0 < k → m.drop k ≠ m.take (m.length - k))

instance (m : List Char) : Decidable (borderFree m) := by
  unfold borderFree
  infer_instance

/-- If `M` is border-free and does not occur in `a`, then no match of `M` can
start strictly inside `a` when the text continues with `M ++ b`. -/
theorem no_straddle (M : List Char) (hbf : borderFree M) (b a : List Char)
    (hno : occursIn M a = false) :
    ∀ v, v ≠ [] → List.IsSuffix v a → M.isPrefixOf (v ++ (M ++ b)) = false := by
  intro v hv hsuf
  by_contra hcon
  have hpre : M <+: v ++ (M ++ b) :=
    List.isPrefixOf_iff_prefix.mp (Bool.of_not_eq_false hcon)
  obtain ⟨w, hw⟩ := hpre
  rcases Nat.lt_or_ge v.length M.length with hlt | hge
  · -- v is shorter than M: a nontrivial border of M arises
    have hvtake : M.take v.length = v := by
      have h1 : (M ++ w).take v.length = v := by
        rw [hw]
        exact List.take_left v (M ++ b)
      rwa [List.take_append_eq_append_take, Nat.sub_eq_zero_of_le (Nat.le_of_lt hlt),
        List.take_zero, List.append_nil] at h1
    have hM : M = v ++ M.drop v.length := by
      conv_lhs => rw [← List.take_append_drop v.length M]
      rw [hvtake]
    have heq : M ++ b = M.drop v.length ++ w := by
      have h1 : v ++ (M ++ b) = v ++ (M.drop v.length ++ w) := by
        rw [← hw]
        conv_lhs => rw [hM]
        rw [List.append_assoc]
      exact (List.append_right_inj v).mp h1
    have hLHS : (M ++ b).take (M.length - v.length) = M.take (M.length - v.length) := by
      rw [List.take_append_eq_append_take, Nat.sub_eq_zero_of_le (Nat.sub_le _ _),
        List.take_zero, List.append_nil]
    have hRHS : (M.drop v.length ++ w).take (M.length - v.length) = M.drop v.length := by
      have hlen : (M.drop v.length).length = M.length - v.length := by simp
      rw [← hlen]
      exact List.take_left _ _
    have hborder : M.drop v.length = M.take (M.length - v.length) := by
      have h2 := congrArg (List.take (M.length - v.length)) heq
      rw [hLHS, hRHS] at h2
      exact h2.symm
    have hvpos : 0 < v.length := List.length_pos.mpr hv
    exact hbf v.length hlt hvpos hborder
  · -- M fits inside v, so M occurs in a
    have hMv : M <+: v := by
      have htake : (v ++ (M ++ b)).take M.length = M := by
        rw [← hw]
        exact List.take_left M w
      rw [List.take_append_eq_append_take, Nat.sub_eq_zero_of_le hge,
        List.take_zero, List.append_nil] at htake
      exact htake ▸ List.take_prefix M.length v
    have hocc : occursIn M a = true := by
      obtain ⟨u, hu⟩ := hsuf
      rw [← hu]
      exact occursIn_append_right M v
        (occursIn_of_isPrefixOf M v (List.isPrefixOf_iff_prefix.mpr hMv)) u
    rw [hocc] at hno
    exact absurd hno (by simp)

theorem splitGo_nil (sep : List Char) (f : Nat) (acc : List Char) :
    splitGo sep f [] acc = [acc.reverse] := by
  cases f <;> rfl

theorem splitGo_cons (sep : List Char) (f : Nat) (c : Char) (rest acc : List Char) :
    splitGo sep (f + 1) (c :: rest) acc =
      if sep.isPrefixOf (c :: rest) then
        acc.reverse :: splitGo sep f (List.drop sep.length (c :: rest)) []
      else splitGo sep f rest (c :: acc) := rfl

theorem splitGo_fuel_irrel (sep : List Char) (hsep : sep ≠ []) :
    ∀ (f1 : Nat) (l : List Char) (f2 : Nat) (acc : List Char),
      l.length ≤ f1 → l.length ≤ f2 → splitGo sep f1 l acc = splitGo sep f2 l acc := by
  intro f1
  induction f1 with
  | zero =>
    intro l f2 acc h1 _
    have hl : l = [] := List.length_eq_zero.mp (Nat.le_zero.mp h1)
    subst hl
    rw [splitGo_nil, splitGo_nil]
  | succ g ih =>
    intro l f2 acc h1 h2
    cases l with
    | nil => rw [splitGo_nil, splitGo_nil]
    | cons c rest =>
      cases f2 with
      | zero => simp at h2
      | succ g2 =>
        rw [splitGo_cons, splitGo_cons]
        have hsl : 1 ≤ sep.length := List.length_pos.mpr hsep
        simp only [List.length_cons] at h1 h2
        by_cases hp : sep.isPrefixOf (c :: rest) = true
        · rw [if_pos hp, if_pos hp]
          congr 1
          apply ih
          · simp only [List.length_drop, List.length_cons]; omega
          · simp only [List.length_drop, List.length_cons]; omega
        · rw [if_neg hp, if_neg hp]
          exact ih rest g2 (c :: acc) (by omega) (by omega)

theorem splitGo_no_occ (sep : List Char) :
    ∀ (b : List Char) (f : Nat) (acc : List Char), b.length ≤ f →
      occursIn sep b = false → splitGo sep f b acc = [acc.reverse ++ b] := by
  intro b
  induction b with
  | nil => intro f acc _ _; rw [splitGo_nil, List.append_nil]
  | cons c rest ih =>
    intro f acc hf hocc
    cases f with
    | zero => simp at hf
    | succ g =>
      rw [occursIn] at hocc
      rcases Bool.or_eq_false_iff.mp hocc with ⟨hp1, hp2⟩
      rw [splitGo_cons, if_neg (by simp [hp1])]
      rw [ih g (c :: acc) (by simpa using Nat.succ_le_succ_iff.mp (by simpa using hf)) hp2]
      simp

theorem splitGo_mid (sep b : List Char) (hsep : sep ≠ []) :
    ∀ (a : List Char) (f : Nat) (acc : List Char),
      (a ++ (sep ++ b)).length ≤ f →
      (∀ v, v ≠ [] → List.IsSuffix v a → sep.isPrefixOf (v ++ (sep ++ b)) = false) →
      splitGo sep f (a ++ (sep ++ b)) acc =
        (acc.reverse ++ a) :: splitGo sep b.length b [] := by
  intro a
  induction a with
  | nil =>
    intro f acc hf _
    simp only [List.nil_append] at hf ⊢
    obtain ⟨s, ss, rfl⟩ : ∃ s ss, sep = s :: ss := by
      cases sep with
      | nil => exact absurd rfl hsep
      | cons s ss => exact ⟨s, ss, rfl⟩
    cases f with
    | zero => simp at hf
    | succ g =>
      rw [List.cons_append, splitGo_cons,
        if_pos (by rw [← List.cons_append]; exact isPrefixOf_append_self (s :: ss) b)]
      rw [← List.cons_append, List.drop_left]
      simp only [List.cons_append, List.length_cons, List.length_append] at hf
      rw [splitGo_fuel_irrel (s :: ss) hsep g b b.length [] (by omega) (Nat.le_refl _)]
      simp
  | cons c a' ih =>
    intro f acc hf hstraddle
    cases f with
    | zero => simp at hf
    | succ g =>
      rw [List.cons_append, splitGo_cons]
      have hcond : sep.isPrefixOf (c :: (a' ++ (sep ++ b))) = false := by
        rw [← List.cons_append]
        exact hstraddle (c :: a') (by simp) (List.suffix_refl _)
      rw [if_neg (by simp [hcond])]
      rw [ih g (c :: acc)
        (by simp only [List.cons_append, List.length_cons] at hf; omega)
        (fun v hv hs => hstraddle v hv (hs.trans (List.suffix_cons c a')))]
      simp

theorem splitOnL_decomp (a b : List Char)
    (ha : occursIn cbMarker a = false) (hb : occursIn cbMarker b = false) :
    splitOnL cbMarker (a ++ (cbMarker ++ b)) = a :: [b] := by
  rw [splitOnL]
  rw [splitGo_mid cbMarker b (by decide) a _ [] (Nat.le_refl _)
    (no_straddle cbMarker (by decide) b a ha)]
  rw [splitGo_no_occ cbMarker b b.length [] (Nat.le_refl _) hb]
  simp

theorem generate_prompt_nil_inputs (l : List Char) :
    generate_prompt [] (String.mk l) =
      String.mk (stripL
        (if occursIn cbMarker l then (splitOnL cbMarker l).getD 1 [] else l)) := rfl

/-- Rendering a template made of a header, the documentation marker and a
body (neither side containing the marker itself) keeps exactly the stripped
body. -/
theorem generate_prompt_marker (a b : List Char)
    (ha : occursIn cbMarker a = false) (hb : occursIn cbMarker b = false) :
    generate_prompt [] (String.mk (a ++ (cbMarker ++ b))) = String.mk (stripL b) := by
  rw [generate_prompt_nil_inputs]
  rw [if_pos (by rw [occursIn_append_self])]
  rw [splitOnL_decomp a b ha hb]
  rfl

/-- Claim C7, confirmed: for a template containing the documentation marker,
rendering uses only the text strictly after the marker (everything before it,
header included, is excluded) and trims leading/trailing whitespace from the
final result. -/
theorem C7_documentation_trim :
    ∀ (a b : List Char), occursIn cbMarker a = false → occursIn cbMarker b = false →
      generate_prompt [] (String.mk (a ++ (cbMarker ++ b))) = String.mk (stripL b) :=
  generate_prompt_marker

theorem C7_documentation_trim_witness :
    generate_prompt []
        (String.mk (("header docs ").toList ++ (cbMarker ++ ("  body line ").toList))) =
      String.mk (stripL (("  body line ").toList)) :=
  C7_documentation_trim (("header docs ").toList) (("  body line ").toList)
    (by decide) (by decide)
